import Mathlib

/-!
Verification of the report PDF generator (`pdf_creator.py`).

Text is modelled as `List Char` (one entry per Unicode code point, matching
Python strings).  Pure fragments of the Python source are translated into
executable Lean definitions; the mutable page counter of the PDF classes is
modelled by explicit state threading.
-/

namespace Report

/-- The fixed replacement table of `sanitize_for_pdf` (lines 17-48 of
`pdf_creator.py`), in source order.  Each key is a single character; the
value is the string substituted for it. -/
def replacements : List (Char × List Char) :=
  [ (Char.ofNat 0x2019, [Char.ofNat 39]),
    (Char.ofNat 0x2018, [Char.ofNat 39]),
    (Char.ofNat 0x201c, [Char.ofNat 34]),
    (Char.ofNat 0x201d, [Char.ofNat 34]),
    (Char.ofNat 0x2014, "--".data),
    (Char.ofNat 0x2013, "-".data),
    (Char.ofNat 0x2026, "...".data),
    (Char.ofNat 0x00a0, " ".data),
    (Char.ofNat 0x2022, "*".data),
    (Char.ofNat 0x2192, "->".data),
    (Char.ofNat 0x2190, "<-".data),
    (Char.ofNat 0x2191, "^".data),
    (Char.ofNat 0x2193, "v".data),
    (Char.ofNat 0x25cf, "*".data),
    (Char.ofNat 0x25cb, "o".data),
    (Char.ofNat 0x25a0, [Char.ofNat 0x25a0]),
    (Char.ofNat 0x25a1, [Char.ofNat 0x25a1]),
    (Char.ofNat 0x2212, "-".data),
    (Char.ofNat 0x00d7, "x".data),
    (Char.ofNat 0x00f7, "/".data),
    (Char.ofNat 0x00b1, "+/-".data),
    (Char.ofNat 0x2264, "<=".data),
    (Char.ofNat 0x2265, ">=".data),
    (Char.ofNat 0x00b0, " degrees".data),
    (Char.ofNat 0x20ac, "EUR".data),
    (Char.ofNat 0x00a3, "GBP".data),
    (Char.ofNat 0x00a5, "JPY".data),
    (Char.ofNat 0x00a9, "(c)".data),
    (Char.ofNat 0x00ae, "(R)".data),
    (Char.ofNat 0x2122, "TM".data) ]

/-- Python `text.replace(key, value)` for a single-character `key`. -/
def replaceChar (key : Char) (val : List Char) : List Char → List Char
  | [] => []
  | c :: rest => (if c = key then val else [c]) ++ replaceChar key val rest

/-- The replacement loop of `sanitize_for_pdf` (lines 50-52): each table
entry is applied in order to the whole text. -/
def applyReplacements (text : List Char) : List Char :=
  replacements.foldl (fun t p => replaceChar p.1 p.2 t) text

/-- Line 57-60: a character with code point `≥ 256` becomes a question
mark, all other characters are kept. -/
def latin1Char (c : Char) : Char :=
  if c.toNat < 256 then c else Char.ofNat 63

/-- Line 63: a control character (code point `< 32`) other than newline,
carriage return and tab becomes a space. -/
def controlChar (c : Char) : Char :=
  if 32 ≤ c.toNat ∨ c = Char.ofNat 10 ∨ c = Char.ofNat 13 ∨ c = Char.ofNat 9
  then c else Char.ofNat 32

/-- `sanitize_for_pdf` (lines 11-65): replacement table, then the
Latin-1 filter, then the control-character filter. -/
def sanitize_for_pdf (text : List Char) : List Char :=
  ((applyReplacements text).map latin1Char).map controlChar

/-- The keys of the replacement table. -/
def replacementKeys : List Char := replacements.map Prod.fst

theorem replaceChar_append (key : Char) (val a b : List Char) :
    replaceChar key val (a ++ b) = replaceChar key val a ++ replaceChar key val b := by
  induction a with
  | nil => rfl
  | cons c t ih => simp [replaceChar, ih]

theorem foldRepl_append (ps : List (Char × List Char)) (a b : List Char) :
    ps.foldl (fun t p => replaceChar p.1 p.2 t) (a ++ b)
      = ps.foldl (fun t p => replaceChar p.1 p.2 t) a
        ++ ps.foldl (fun t p => replaceChar p.1 p.2 t) b := by
  induction ps generalizing a b with
  | nil => rfl
  | cons p ps ih => simp only [List.foldl_cons, replaceChar_append, ih]

theorem sanitize_append (a b : List Char) :
    sanitize_for_pdf (a ++ b) = sanitize_for_pdf a ++ sanitize_for_pdf b := by
  simp only [sanitize_for_pdf, applyReplacements, foldRepl_append, List.map_append]

theorem sanitize_cons (c : Char) (t : List Char) :
    sanitize_for_pdf (c :: t) = sanitize_for_pdf [c] ++ sanitize_for_pdf t := by
  have h : c :: t = [c] ++ t := rfl
  rw [h, sanitize_append]

theorem foldRepl_single_notkey (ps : List (Char × List Char)) (c : Char)
    (h : ∀ p ∈ ps, c ≠ p.1) :
    ps.foldl (fun t p => replaceChar p.1 p.2 t) [c] = [c] := by
  induction ps with
  | nil => rfl
  | cons p ps ih =>
    have hc : c ≠ p.1 := h p (by simp)
    simp only [List.foldl_cons, replaceChar, if_neg hc]
    exact ih (fun q hq => h q (by simp [hq]))

theorem applyReplacements_single_notkey (c : Char) (h : c ∉ replacementKeys) :
    applyReplacements [c] = [c] := by
  refine foldRepl_single_notkey _ _ (fun p hp heq => h ?_)
  exact heq ▸ List.mem_map_of_mem Prod.fst hp

theorem sanitize_single_notkey (c : Char) (h : c ∉ replacementKeys) :
    sanitize_for_pdf [c] = [controlChar (latin1Char c)] := by
  simp [sanitize_for_pdf, applyReplacements_single_notkey c h]

theorem sanitize_sanitize_single (c : Char) :
    sanitize_for_pdf (sanitize_for_pdf [c]) = sanitize_for_pdf [c] := by
  by_cases hk : c ∈ replacementKeys
  · simp only [replacementKeys, replacements, List.map_cons, List.map_nil,
      List.mem_cons, List.not_mem_nil, or_false] at hk
    rcases hk with rfl | rfl | rfl | rfl | rfl | rfl | rfl | rfl | rfl | rfl |
      rfl | rfl | rfl | rfl | rfl | rfl | rfl | rfl | rfl | rfl |
      rfl | rfl | rfl | rfl | rfl | rfl | rfl | rfl | rfl | rfl <;> decide
  · rw [sanitize_single_notkey c hk]
    by_cases h256 : c.toNat < 256
    · by_cases hctrl : 32 ≤ c.toNat ∨ c = Char.ofNat 10 ∨ c = Char.ofNat 13 ∨ c = Char.ofNat 9
      · rw [show latin1Char c = c from if_pos h256, show controlChar c = c from if_pos hctrl,
          sanitize_single_notkey c hk, show latin1Char c = c from if_pos h256,
          show controlChar c = c from if_pos hctrl]
      · rw [show latin1Char c = c from if_pos h256, show controlChar c = Char.ofNat 32 from if_neg hctrl]
        decide
    · rw [show latin1Char c = Char.ofNat 63 from if_neg h256]
      norm_num [controlChar]
      decide

/-- Idempotence of the sanitizer. -/
theorem sanitize_idem (l : List Char) :
    sanitize_for_pdf (sanitize_for_pdf l) = sanitize_for_pdf l := by
  induction l with
  | nil => rfl
  | cons c t ih =>
    rw [sanitize_cons, sanitize_append, sanitize_sanitize_single, ih]

theorem latin1Char_lt (c : Char) : (latin1Char c).toNat < 256 := by
  unfold latin1Char
  split
  · assumption
  · decide

/-- Every output character of the sanitizer is Latin-1 and is either
printable or one of newline / carriage return / tab. -/
theorem sanitize_range (l : List Char) (c : Char) (hc : c ∈ sanitize_for_pdf l) :
    c.toNat < 256 ∧ (32 ≤ c.toNat ∨ c = Char.ofNat 10 ∨ c = Char.ofNat 13 ∨ c = Char.ofNat 9) := by
  simp only [sanitize_for_pdf, List.mem_map] at hc
  obtain ⟨b, ⟨a, _, rfl⟩, rfl⟩ := hc
  unfold controlChar
  split
  · exact ⟨latin1Char_lt a, by assumption⟩
  · exact ⟨by decide, Or.inl (by decide)⟩

end Report

namespace Report

/-- One entry of the `sections` list of the content payload. -/
structure ReportSection where
  title : List Char
  content : List Char
deriving DecidableEq

/-- The content payload handed to the builders (a Python dict).  A
`references` entry that is not a string is modelled as `none`. -/
structure ReportContent where
  introduction : List Char
  sections : List ReportSection
  conclusion : List Char
  references : List (Option (List Char))
  requested_pages : Nat
deriving DecidableEq

/-- Line 682: `content_pages = max(requested_pages - 3, 1)` in
`create_typed_pdf` (Python integer arithmetic). -/
def typed_content_pages (requestedPages : Int) : Int :=
  max (requestedPages - 3) 1

/-- Line 941: `content_pages = max(requested_pages - 3, 1)` in
`create_handwritten_pdf`. -/
def handwritten_content_pages (requestedPages : Int) : Int :=
  max (requestedPages - 3) 1

/-- Line 685: `chars_per_page = 4000` in `create_typed_pdf`. -/
def chars_per_page : Nat := 4000

/-- Line 939: `words_per_page = 500` in `create_handwritten_pdf`. -/
def words_per_page : Nat := 500

/-- Lines 701 and 1257: `max(3, min(5, requested_pages // 2))`, the number
of placeholder sections synthesized when the payload has none. -/
def placeholder_section_count (requestedPages : Nat) : Nat :=
  max 3 (min 5 (requestedPages / 2))

/-- Lines 702-708: the template titles used by `create_typed_pdf` for
synthesized sections (`title` is the already-sanitized report title). -/
def meaningful_titles_typed (title : List Char) : List (List Char) :=
  [ "Background and Context of ".data ++ title,
    "Key Concepts in ".data ++ title,
    "Analysis of ".data ++ title,
    "Applications and Implications of ".data ++ title,
    "Future Directions in ".data ++ title ++ " Research".data ]

/-- Lines 1258-1264: the template titles used by `create_handwritten_pdf`
for synthesized sections. -/
def meaningful_titles_handwritten (title : List Char) : List (List Char) :=
  [ "My Thoughts on ".data ++ title,
    "Key Ideas About ".data ++ title,
    "Understanding ".data ++ title ++ " Better".data,
    "Interesting Aspects of ".data ++ title,
    "Reflections on ".data ++ title ]

/-- Lines 710-715: the sections `create_typed_pdf` writes into the payload
when `content.get('sections')` is falsy. -/
def typed_placeholder_sections (title : List Char) (requestedPages : Nat) :
    List ReportSection :=
  (List.range (placeholder_section_count requestedPages)).map (fun i =>
    { title := (meaningful_titles_typed title).getD
        (i % (meaningful_titles_typed title).length) [],
      content := "Detailed analysis on ".data ++ title
        ++ " with comprehensive discussion and examples.".data })

/-- Lines 1266-1271: the synthesized sections of `create_handwritten_pdf`. -/
def handwritten_placeholder_sections (title : List Char) (requestedPages : Nat) :
    List ReportSection :=
  (List.range (placeholder_section_count requestedPages)).map (fun i =>
    { title := (meaningful_titles_handwritten title).getD
        (i % (meaningful_titles_handwritten title).length) [],
      content := "Extended commentary and detailed discussion on ".data ++ title
        ++ ".".data })

/-- The sections list each builder actually lays out: the payload sections,
or the synthesized placeholders when the list is empty (lines 699-715 and
1256-1271; the title fed to the templates is the sanitized one). -/
def typed_sections_used (title : List Char) (c : ReportContent) : List ReportSection :=
  if c.sections = [] then
    typed_placeholder_sections (sanitize_for_pdf title) c.requested_pages
  else c.sections

/-- Handwritten counterpart of `typed_sections_used`. -/
def handwritten_sections_used (title : List Char) (c : ReportContent) :
    List ReportSection :=
  if c.sections = [] then
    handwritten_placeholder_sections (sanitize_for_pdf title) c.requested_pages
  else c.sections

end Report

namespace Report

/-- Fuel-indexed form of the filler loops
`while pdf.current_page < bound: pdf.add_page()` (lines 787-788 and
1291-1292): the guard is re-tested before every page, and `bound - cur`
fuel is always sufficient. -/
def fillLoopGo (bound : Nat) : Nat → Nat → Nat
  | 0, cur => cur
  | fuel + 1, cur => if cur < bound then fillLoopGo bound fuel (cur + 1) else cur

/-- The page counter after a filler loop that starts at `cur` and keeps
adding pages while the counter is below `bound`. -/
def fillLoop (cur bound : Nat) : Nat := fillLoopGo bound (bound - cur) cur

theorem fillLoopGo_eq (bound : Nat) :
    ∀ fuel cur, bound ≤ cur + fuel → fillLoopGo bound fuel cur = max cur bound := by
  intro fuel
  induction fuel with
  | zero =>
    intro cur h
    simp only [Nat.add_zero] at h
    simp [fillLoopGo, Nat.max_eq_left h]
  | succ n ih =>
    intro cur h
    by_cases hlt : cur < bound
    · rw [show fillLoopGo bound (n + 1) cur = fillLoopGo bound n (cur + 1) from by
        simp [fillLoopGo, hlt]]
      rw [ih (cur + 1) (by omega)]
      omega
    · simp [fillLoopGo, hlt]
      omega

/-- The filler loop runs the counter up to `bound`, and not past it. -/
theorem fillLoop_eq (cur bound : Nat) : fillLoop cur bound = max cur bound :=
  fillLoopGo_eq bound (bound - cur) cur (by omega)

/-- The page numbers printed in the typed Table of Contents
(lines 626-665): the counter starts at 3, Introduction takes one entry,
then one entry per payload section (the payload is read before any
placeholder synthesis), then Conclusion and References.  Returns
(conclusion page number, references page number) as printed. -/
def typed_toc_pages (c : ReportContent) : Nat × Nat :=
  let counter := 3
  let counter := counter + 1
  let counter := c.sections.foldl (fun k _ => k + 1) counter
  (counter, counter + 1)

/-- The page numbers listed in the handwritten Contents page
(lines 1032-1052), identical counting scheme. -/
def handwritten_toc_pages (c : ReportContent) : Nat × Nat :=
  let counter := 3
  let counter := counter + 1
  let counter := c.sections.foldl (fun k _ => k + 1) counter
  (counter, counter + 1)

/-- The page trace of `create_typed_pdf`: values of the
`current_page` counter at the explicit `add_page` call sites. -/
structure TypedTrace where
  afterIntroPage : Nat
  afterSectionsPage : Nat
  conclusionPageNumber : Nat
  afterFillerPage : Nat
  conclusionPage : Nat
  referencesPage : Nat
deriving DecidableEq

/-- `create_typed_pdf` page trace restricted to the explicit `add_page`
call sites: Abstract page, TOC page, Introduction page (lines 572, 616,
668), one page per laid-out section (line 728), the filler loop
(lines 783-788), the Conclusion page (line 792) and the References page
(line 806).  Because `set_auto_page_break` is on (line 569), overflowing
`cell`/`multi_cell` calls also invoke the overridden `add_page` and
advance `current_page`; that general execution is modelled by
`typedBuildAuto` below, parameterized by a per-phase overflow profile, and
this trace is its zero-overflow instance (`typed_total_pages_auto_zero_eq`). -/
def typedBuild (title : List Char) (c : ReportContent) : TypedTrace :=
  let secs := typed_sections_used title c
  let afterAbstract := 0 + 1
  let afterToc := afterAbstract + 1
  let afterIntro := afterToc + 1
  let afterSections := secs.foldl (fun cur _ => cur + 1) afterIntro
  let conclusionPageNumber := secs.length + 3
  let afterFiller := fillLoop afterSections (conclusionPageNumber - 1)
  { afterIntroPage := afterIntro,
    afterSectionsPage := afterSections,
    conclusionPageNumber := conclusionPageNumber,
    afterFillerPage := afterFiller,
    conclusionPage := afterFiller + 1,
    referencesPage := afterFiller + 2 }

/-- Page count of the typed document in the execution where no automatic
page break fires (the zero-overflow instance of `typed_total_pages_auto`,
which also counts overflow breaks during conclusion/references
rendering). -/
def typed_total_pages (title : List Char) (c : ReportContent) : Nat :=
  (typedBuild title c).referencesPage

/-- `write_handwritten_section` (lines 1073-1077) adds one page unless the
title it is given is falsy, in which case it returns without rendering. -/
def writeSectionPage (title : List Char) (cur : Nat) : Nat :=
  if title = [] then cur else cur + 1

/-- The page trace of `create_handwritten_pdf`. -/
structure HandwrittenTrace where
  afterIntroPage : Nat
  afterSectionsPage : Nat
  afterFillerPage : Nat
  conclusionPage : Nat
  referencesPage : Nat
deriving DecidableEq

/-- `create_handwritten_pdf` page trace restricted to the explicit
`add_page` call sites: Abstract page (line 989), Contents page
(line 1021), the Introduction section (line 1253), one page per section
whose sanitized title is nonempty (lines 1278-1287), the filler loop up
to `target_pages - 2` (lines 1291-1292), the Conclusion section
(line 1360) and the References page (line 1363).  Auto page break is on
(line 947), so abstract/Contents/filler/reference `cell`/`multi_cell`
calls can also break pages; the general execution is modelled by
`handwrittenBuildAuto` below, of which this trace is the zero-overflow
instance (`handwritten_total_pages_auto_zero_eq`). -/
def handwrittenBuild (title : List Char) (c : ReportContent) : HandwrittenTrace :=
  let secs := handwritten_sections_used title c
  let afterAbstract := 0 + 1
  let afterToc := afterAbstract + 1
  let afterIntro := writeSectionPage "Introduction:".data afterToc
  let afterSections :=
    secs.foldl (fun cur s => writeSectionPage (sanitize_for_pdf s.title) cur) afterIntro
  let afterFiller := fillLoop afterSections (c.requested_pages - 2)
  let conclusionPage := writeSectionPage "Conclusion:".data afterFiller
  { afterIntroPage := afterIntro,
    afterSectionsPage := afterSections,
    afterFillerPage := afterFiller,
    conclusionPage := conclusionPage,
    referencesPage := conclusionPage + 1 }

/-- Page count of the handwritten document in the execution where no
automatic page break fires (the zero-overflow instance of
`handwritten_total_pages_auto`, which also counts overflow breaks after
the last explicit `add_page`). -/
def handwritten_total_pages (title : List Char) (c : ReportContent) : Nat :=
  (handwrittenBuild title c).referencesPage

end Report

namespace Report

/-- The state of the caller's payload dict after `create_typed_pdf`
returns: the in-place sanitation pass of lines 556-561 (string values
sanitized, string items of list values sanitized, everything else kept —
the sections dicts and the page count are untouched by it) followed by
the placeholder-section injection of lines 710-715 (which writes
`typed_sections_used` into the dict). -/
def typedFinalContent (title : List Char) (c : ReportContent) : ReportContent :=
  { introduction := sanitize_for_pdf c.introduction,
    sections := typed_sections_used title c,
    conclusion := sanitize_for_pdf c.conclusion,
    references := c.references.map (Option.map sanitize_for_pdf),
    requested_pages := c.requested_pages }

/-- The state of the caller's payload dict after `create_handwritten_pdf`
returns (sanitation pass of lines 931-936, section injection of lines
1266-1271). -/
def handwrittenFinalContent (title : List Char) (c : ReportContent) : ReportContent :=
  { introduction := sanitize_for_pdf c.introduction,
    sections := handwritten_sections_used title c,
    conclusion := sanitize_for_pdf c.conclusion,
    references := c.references.map (Option.map sanitize_for_pdf),
    requested_pages := c.requested_pages }

/-- `HandwrittenPDF.writing_style` (lines 110-116): per-document style
constants, sampled once.  Floats are modelled as rationals. -/
structure WritingStyle where
  base_slant : ℚ
  pressure_variation : ℚ
  speed_variation : ℚ
  fatigue_factor : ℚ
  dominant_hand_right : Bool
deriving DecidableEq

/-- The mutable fields of `HandwrittenPDF` relevant to fatigue
(lines 105-118): the per-document style and the running counters. -/
structure HandwrittenState where
  writing_style : WritingStyle
  word_count : Nat
  line_count : Nat
  current_page : Nat
deriving DecidableEq

/-- Line 132: `fatigue_effect = 1 + (self.word_count *
self.writing_style['fatigue_factor'] * 0.1)` in `rotated_text`. -/
def fatigue_effect (s : HandwrittenState) : ℚ :=
  1 + s.word_count * s.writing_style.fatigue_factor * (1 / 10)

/-- Line 1155: `word_fatigue = 1 + (pdf.word_count * 0.002)` in
`write_handwritten_section`. -/
def word_fatigue (s : HandwrittenState) : ℚ :=
  1 + s.word_count * (2 / 1000)

/-- Python `str.split()` with no separator: split on whitespace runs,
dropping empty pieces. -/
def python_whitespace : List Char :=
  [Char.ofNat 32, Char.ofNat 9, Char.ofNat 10, Char.ofNat 13, Char.ofNat 11,
   Char.ofNat 12, Char.ofNat 28, Char.ofNat 29, Char.ofNat 30, Char.ofNat 31,
   Char.ofNat 0x85, Char.ofNat 0xa0]

/-- Python `text.split()`. -/
def pySplit (l : List Char) : List (List Char) :=
  (l.splitOnP (fun c => decide (c ∈ python_whitespace))).filter (fun w => w ≠ [])

/-- Line 198 of `rotated_text`:
`self.word_count += len(text.split())` — the only write to `word_count`
anywhere in the class. -/
def rotatedTextWordCount (s : HandwrittenState) (text : List Char) : Nat :=
  s.word_count + (pySplit text).length

/-- `HandwrittenPDF.add_page` (lines 211-222): paints the background
texture and increments `current_page`; no other state field is touched. -/
def handwrittenAddPage (s : HandwrittenState) : HandwrittenState :=
  { s with current_page := s.current_page + 1 }

/-- Python `str.strip()` on a string (drop leading and trailing
whitespace). -/
def pyStrip (l : List Char) : List Char :=
  ((l.dropWhile (fun c => decide (c ∈ python_whitespace))).reverse.dropWhile
    (fun c => decide (c ∈ python_whitespace))).reverse

/-- Python `re.sub` for a fixed literal pattern: scan left to right,
replacing non-overlapping occurrences of `pat`. -/
def replaceSeq (pat rep : List Char) : List Char → List Char
  | [] => []
  | c :: rest =>
    if pat.isPrefixOf (c :: rest) then
      rep ++ replaceSeq pat rep (List.drop (pat.length - 1) rest)
    else
      c :: replaceSeq pat rep rest
termination_by l => l.length
decreasing_by
  · simp only [List.length_drop, List.length_cons]
    omega
  · simp only [List.length_cons]
    omega

/-- The literal two-character sequence backslash-n. -/
def litBackslashN : List Char := [Char.ofNat 92, Char.ofNat 110]

/-- The literal four-character sequence backslash-n-backslash-n. -/
def litBackslashNN : List Char :=
  [Char.ofNat 92, Char.ofNat 110, Char.ofNat 92, Char.ofNat 110]

/-- Lines 690-691 / 960-961 / 1116-1117:
`re.sub(r'\\n\\n', ' ', t)` followed by `re.sub(r'\\n', ' ', t)` —
collapse literal escaped-newline sequences to spaces. -/
def collapseEscapes (l : List Char) : List Char :=
  replaceSeq litBackslashN " ".data (replaceSeq litBackslashNN " ".data l)

/-- Line 694: the fallback introduction sentence of `create_typed_pdf`
(used when the sanitized introduction is empty). -/
def typed_default_introduction (title : List Char) : List Char :=
  "This report explores the topic of ".data ++ title
    ++ " in detail. It aims to provide a comprehensive overview of key aspects related to this subject.".data

/-- Line 801 / 1357: the fallback conclusion sentence. -/
def default_conclusion (title : List Char) : List Char :=
  "In conclusion, ".data ++ title ++ " represents an important area of study.".data

/-- The introduction text `create_typed_pdf` renders (lines 587 and
687-694): the payload introduction is sanitized (twice: once by the
payload pass, once at line 587); when nonempty the escaped newlines are
collapsed and the full text is passed to `multi_cell`, otherwise the
fallback sentence is used.  No length cap is applied anywhere. -/
def typed_introduction_rendered (title : List Char) (c : ReportContent) : List Char :=
  let t := sanitize_for_pdf (sanitize_for_pdf c.introduction)
  if t = [] then typed_default_introduction (sanitize_for_pdf title)
  else collapseEscapes t

/-- The conclusion text `create_typed_pdf` renders (lines 799-802):
`sanitize_for_pdf(str(content.get('conclusion', '')).replace('\n', ' ').strip())`
on the already-sanitized payload field, with the fallback sentence when
empty.  The full text is passed to `multi_cell`; no cap, no ellipsis. -/
def typed_conclusion_rendered (title : List Char) (c : ReportContent) : List Char :=
  let t := sanitize_for_pdf
    (pyStrip (replaceChar (Char.ofNat 10) " ".data (sanitize_for_pdf c.conclusion)))
  if t = [] then default_conclusion (sanitize_for_pdf title)
  else t

/-- Modelled from the spec: the specification's `introductionCap`, a fixed
15% fraction of `capacityPerPage * contentPages`, which §4.2 claims the
builders compute and enforce by truncation-with-ellipsis.  No such cap
exists in `pdf_creator.py`; this definition only renders the spec's
formula so that the claim can be stated. -/
def spec_introduction_cap (requestedPages : Int) : ℚ :=
  (15 / 100 : ℚ) * ((chars_per_page : ℚ) * (typed_content_pages requestedPages : ℚ))

end Report

namespace Report

theorem foldl_add_one (l : List ReportSection) (n : Nat) :
    l.foldl (fun cur _ => cur + 1) n = n + l.length := by
  induction l generalizing n with
  | nil => simp
  | cons s t ih => simp [ih]; omega

theorem foldl_writeSectionPage (l : List ReportSection) (n : Nat) :
    l.foldl (fun cur s => writeSectionPage (sanitize_for_pdf s.title) cur) n
      = n + l.countP (fun s => decide (sanitize_for_pdf s.title ≠ [])) := by
  induction l generalizing n with
  | nil => simp
  | cons s t ih =>
    rw [List.foldl_cons, ih]
    simp only [List.countP_cons, writeSectionPage]
    by_cases h : sanitize_for_pdf s.title = [] <;> simp [h] <;> omega

theorem placeholder_section_count_ge (rp : Nat) : 3 ≤ placeholder_section_count rp :=
  Nat.le_max_left 3 _

theorem placeholder_section_count_le (rp : Nat) : placeholder_section_count rp ≤ 5 := by
  unfold placeholder_section_count
  omega

theorem typed_placeholder_sections_length (t : List Char) (rp : Nat) :
    (typed_placeholder_sections t rp).length = placeholder_section_count rp := by
  simp [typed_placeholder_sections]

theorem handwritten_placeholder_sections_length (t : List Char) (rp : Nat) :
    (handwritten_placeholder_sections t rp).length = placeholder_section_count rp := by
  simp [handwritten_placeholder_sections]

theorem typed_sections_used_ne_nil (title : List Char) (c : ReportContent) :
    typed_sections_used title c ≠ [] := by
  unfold typed_sections_used
  split
  · intro h
    have := congrArg List.length h
    rw [typed_placeholder_sections_length] at this
    have h3 := placeholder_section_count_ge c.requested_pages
    simp at this
    omega
  · assumption

theorem handwritten_sections_used_ne_nil (title : List Char) (c : ReportContent) :
    handwritten_sections_used title c ≠ [] := by
  unfold handwritten_sections_used
  split
  · intro h
    have := congrArg List.length h
    rw [handwritten_placeholder_sections_length] at this
    have h3 := placeholder_section_count_ge c.requested_pages
    simp at this
    omega
  · assumption

theorem mem_meaningful_titles_typed (t x : List Char)
    (hx : x ∈ meaningful_titles_typed t) : t <:+: x := by
  simp only [meaningful_titles_typed, List.mem_cons, List.not_mem_nil, or_false] at hx
  rcases hx with rfl | rfl | rfl | rfl | rfl
  · exact ⟨"Background and Context of ".data, [], by simp⟩
  · exact ⟨"Key Concepts in ".data, [], by simp⟩
  · exact ⟨"Analysis of ".data, [], by simp⟩
  · exact ⟨"Applications and Implications of ".data, [], by simp⟩
  · exact ⟨"Future Directions in ".data, " Research".data, by simp⟩

theorem mem_meaningful_titles_handwritten (t x : List Char)
    (hx : x ∈ meaningful_titles_handwritten t) : t <:+: x := by
  simp only [meaningful_titles_handwritten, List.mem_cons, List.not_mem_nil, or_false] at hx
  rcases hx with rfl | rfl | rfl | rfl | rfl
  · exact ⟨"My Thoughts on ".data, [], by simp⟩
  · exact ⟨"Key Ideas About ".data, [], by simp⟩
  · exact ⟨"Understanding ".data, " Better".data, by simp⟩
  · exact ⟨"Interesting Aspects of ".data, [], by simp⟩
  · exact ⟨"Reflections on ".data, [], by simp⟩

theorem typed_placeholder_title_mem (t : List Char) (rp : Nat) (s : ReportSection)
    (hs : s ∈ typed_placeholder_sections t rp) :
    s.title ∈ meaningful_titles_typed t := by
  simp only [typed_placeholder_sections, List.mem_map, List.mem_range] at hs
  obtain ⟨i, _, rfl⟩ := hs
  have hlen : (meaningful_titles_typed t).length = 5 := by simp [meaningful_titles_typed]
  have hlt : i % (meaningful_titles_typed t).length < (meaningful_titles_typed t).length := by
    rw [hlen]; omega
  simp only [List.getD_eq_getElem _ _ hlt]
  exact List.getElem_mem _

theorem handwritten_placeholder_title_mem (t : List Char) (rp : Nat) (s : ReportSection)
    (hs : s ∈ handwritten_placeholder_sections t rp) :
    s.title ∈ meaningful_titles_handwritten t := by
  simp only [handwritten_placeholder_sections, List.mem_map, List.mem_range] at hs
  obtain ⟨i, _, rfl⟩ := hs
  have hlen : (meaningful_titles_handwritten t).length = 5 := by
    simp [meaningful_titles_handwritten]
  have hlt : i % (meaningful_titles_handwritten t).length
      < (meaningful_titles_handwritten t).length := by
    rw [hlen]; omega
  simp only [List.getD_eq_getElem _ _ hlt]
  exact List.getElem_mem _

theorem sanitize_nil : sanitize_for_pdf [] = [] := by decide

theorem sanitize_replicate (c : Char) (h : sanitize_for_pdf [c] = [c]) (n : Nat) :
    sanitize_for_pdf (List.replicate n c) = List.replicate n c := by
  induction n with
  | zero =>
    rw [List.replicate_zero]
    exact sanitize_nil
  | succ m ih =>
    rw [List.replicate_succ, sanitize_cons, h, ih]
    simp [List.replicate_succ]

theorem replaceSeq_not_head (p : Char) (ps rep : List Char) (l : List Char)
    (h : ∀ c ∈ l, c ≠ p) : replaceSeq (p :: ps) rep l = l := by
  induction l with
  | nil => simp only [replaceSeq]
  | cons c rest ih =>
    have hc : c ≠ p := h c (by simp)
    have hbeq : (p == c) = false := beq_eq_false_iff_ne.mpr (Ne.symm hc)
    simp only [replaceSeq, List.isPrefixOf_cons₂, hbeq, Bool.false_and,
      Bool.false_eq_true, if_false, List.cons.injEq, true_and]
    exact ih (fun x hx => h x (by simp [hx]))

end Report

namespace Report

theorem typedBuild_afterSectionsPage (title : List Char) (c : ReportContent) :
    (typedBuild title c).afterSectionsPage = (typed_sections_used title c).length + 3 := by
  simp only [typedBuild, foldl_add_one]
  omega

theorem typedBuild_afterFillerPage (title : List Char) (c : ReportContent) :
    (typedBuild title c).afterFillerPage = (typed_sections_used title c).length + 3 := by
  simp only [typedBuild, foldl_add_one, fillLoop_eq]
  omega

theorem typedBuild_conclusionPage (title : List Char) (c : ReportContent) :
    (typedBuild title c).conclusionPage = (typed_sections_used title c).length + 4 := by
  simp only [typedBuild, foldl_add_one, fillLoop_eq]
  omega

theorem typedBuild_referencesPage (title : List Char) (c : ReportContent) :
    (typedBuild title c).referencesPage = (typed_sections_used title c).length + 5 := by
  simp only [typedBuild, foldl_add_one, fillLoop_eq]
  omega

/-- Shorthand for the number of sections the handwritten builder actually
renders: those whose sanitized title is nonempty. -/
def handwritten_rendered_count (title : List Char) (c : ReportContent) : Nat :=
  (handwritten_sections_used title c).countP
    (fun s => decide (sanitize_for_pdf s.title ≠ []))

theorem handwrittenBuild_afterSectionsPage (title : List Char) (c : ReportContent) :
    (handwrittenBuild title c).afterSectionsPage
      = handwritten_rendered_count title c + 3 := by
  have h1 : "Introduction:".data ≠ [] := by decide
  simp only [handwrittenBuild, handwritten_rendered_count]
  rw [foldl_writeSectionPage]
  simp only [writeSectionPage, List.cons_ne_nil, if_false]
  omega

theorem handwrittenBuild_conclusionPage (title : List Char) (c : ReportContent) :
    (handwrittenBuild title c).conclusionPage
      = max (handwritten_rendered_count title c + 3) (c.requested_pages - 2) + 1 := by
  have h1 : "Introduction:".data ≠ [] := by decide
  have h2 : "Conclusion:".data ≠ [] := by decide
  simp only [handwrittenBuild, handwritten_rendered_count]
  rw [foldl_writeSectionPage]
  simp only [writeSectionPage, List.cons_ne_nil, if_neg h1, if_neg h2, if_false]
  rw [fillLoop_eq]
  omega

theorem handwrittenBuild_referencesPage (title : List Char) (c : ReportContent) :
    (handwrittenBuild title c).referencesPage
      = max (handwritten_rendered_count title c + 3) (c.requested_pages - 2) + 2 := by
  have h1 : "Introduction:".data ≠ [] := by decide
  have h2 : "Conclusion:".data ≠ [] := by decide
  simp only [handwrittenBuild, handwritten_rendered_count]
  rw [foldl_writeSectionPage]
  simp only [writeSectionPage, List.cons_ne_nil, if_neg h1, if_neg h2, if_false]
  rw [fillLoop_eq]
  omega

theorem handwritten_total_pages_eq (title : List Char) (c : ReportContent) :
    handwritten_total_pages title c
      = max (handwritten_rendered_count title c + 5) c.requested_pages := by
  rw [handwritten_total_pages, handwrittenBuild_referencesPage]
  omega

theorem typed_toc_pages_eq (c : ReportContent) :
    typed_toc_pages c = (c.sections.length + 4, c.sections.length + 5) := by
  simp only [typed_toc_pages, foldl_add_one, Prod.mk.injEq]
  omega

theorem handwritten_toc_pages_eq (c : ReportContent) :
    handwritten_toc_pages c = (c.sections.length + 4, c.sections.length + 5) := by
  simp only [handwritten_toc_pages, foldl_add_one, Prod.mk.injEq]
  omega

end Report

namespace Report

/-- C10: in `create_typed_pdf` the filler loop before the Conclusion adds
zero pages for every input: after the abstract, TOC, introduction and the
`N ≥ 1` section pages the counter stands at `N + 3`, which already meets
the loop bound `conclusion_page_number - 1 = N + 2`. -/
theorem typed_filler_loop_never_runs (title : List Char) (c : ReportContent) :
    1 ≤ (typed_sections_used title c).length ∧
    (typedBuild title c).afterSectionsPage = (typed_sections_used title c).length + 3 ∧
    (typedBuild title c).conclusionPageNumber - 1
      = (typed_sections_used title c).length + 2 ∧
    (typedBuild title c).afterFillerPage = (typedBuild title c).afterSectionsPage := by
  have hne := typed_sections_used_ne_nil title c
  have hlen : 1 ≤ (typed_sections_used title c).length := by
    cases h : typed_sections_used title c with
    | nil => exact absurd h hne
    | cons a t => simp
  refine ⟨hlen, typedBuild_afterSectionsPage title c, ?_, ?_⟩
  · simp only [typedBuild]
    omega
  · rw [typedBuild_afterFillerPage, typedBuild_afterSectionsPage]

/-- C7: both builders derive `content_pages` as
`max(requested_pages - 3, 1)`: the derived value is never below 1, so an
over-small page request is clamped instead of failing. -/
theorem content_pages_clamping : ∀ requestedPages : Int,
    typed_content_pages requestedPages = max (requestedPages - 3) 1 ∧
    handwritten_content_pages requestedPages = max (requestedPages - 3) 1 ∧
    1 ≤ typed_content_pages requestedPages ∧
    1 ≤ handwritten_content_pages requestedPages ∧
    (requestedPages - 3 < 1 → typed_content_pages requestedPages = 1) ∧
    (1 ≤ requestedPages - 3 →
      typed_content_pages requestedPages = requestedPages - 3) := by
  intro rp
  unfold typed_content_pages handwritten_content_pages
  refine ⟨rfl, rfl, le_max_right _ _, le_max_right _ _, ?_, ?_⟩ <;> intro h <;> omega

/-- C7 (witness): `requested_pages = 2` clamps to one content page;
`requested_pages = 10` yields `10 - 3` content pages. -/
theorem content_pages_clamping_witness :
    typed_content_pages 2 = 1 ∧ typed_content_pages 10 = 10 - 3 :=
  ⟨(content_pages_clamping 2).2.2.2.2.1 (by norm_num),
   (content_pages_clamping 10).2.2.2.2.2 (by norm_num)⟩

/-- C3: `sanitize_for_pdf` is idempotent, and every character of its
output has code point below 256 and is either a non-control character
(code point at least 32) or one of newline, carriage return, tab. -/
theorem sanitize_idempotent_and_range :
    (∀ s : List Char, sanitize_for_pdf (sanitize_for_pdf s) = sanitize_for_pdf s) ∧
    ∀ s : List Char, ∀ c ∈ sanitize_for_pdf s,
      c.toNat < 256 ∧
      (32 ≤ c.toNat ∨ c = Char.ofNat 10 ∨ c = Char.ofNat 13 ∨ c = Char.ofNat 9) :=
  ⟨sanitize_idem, fun s c hc => sanitize_range s c hc⟩

/-- C3 (witness): idempotence and the range property at a concrete string
and a concrete output character. -/
theorem sanitize_idempotent_and_range_witness :
    sanitize_for_pdf (sanitize_for_pdf "ab".data) = sanitize_for_pdf "ab".data ∧
    ((Char.ofNat 97).toNat < 256 ∧
      (32 ≤ (Char.ofNat 97).toNat ∨ Char.ofNat 97 = Char.ofNat 10 ∨
        Char.ofNat 97 = Char.ofNat 13 ∨ Char.ofNat 97 = Char.ofNat 9)) :=
  ⟨sanitize_idempotent_and_range.1 "ab".data,
   sanitize_idempotent_and_range.2 "ab".data (Char.ofNat 97) (by decide)⟩

end Report

namespace Report

/-- C4: when the payload has no sections, both builders synthesize
`max(3, min(5, requested_pages // 2))` placeholder sections — between 3
and 5 of them — whose titles are drawn from the topic-derived template
lists and contain the (sanitized) title, so layout never sees an empty
sections list. -/
theorem zero_sections_fallback (title : List Char) (c : ReportContent)
    (h : c.sections = []) :
    3 ≤ placeholder_section_count c.requested_pages ∧
    placeholder_section_count c.requested_pages ≤ 5 ∧
    placeholder_section_count c.requested_pages
      = max 3 (min 5 (c.requested_pages / 2)) ∧
    (typed_sections_used title c).length = placeholder_section_count c.requested_pages ∧
    (handwritten_sections_used title c).length
      = placeholder_section_count c.requested_pages ∧
    (∀ s ∈ typed_sections_used title c,
      s.title ∈ meaningful_titles_typed (sanitize_for_pdf title) ∧
      sanitize_for_pdf title <:+: s.title) ∧
    (∀ s ∈ handwritten_sections_used title c,
      s.title ∈ meaningful_titles_handwritten (sanitize_for_pdf title) ∧
      sanitize_for_pdf title <:+: s.title) := by
  have ht : typed_sections_used title c
      = typed_placeholder_sections (sanitize_for_pdf title) c.requested_pages := by
    simp [typed_sections_used, h]
  have hh : handwritten_sections_used title c
      = handwritten_placeholder_sections (sanitize_for_pdf title) c.requested_pages := by
    simp [handwritten_sections_used, h]
  refine ⟨placeholder_section_count_ge _, placeholder_section_count_le _, rfl, ?_, ?_, ?_, ?_⟩
  · rw [ht, typed_placeholder_sections_length]
  · rw [hh, handwritten_placeholder_sections_length]
  · intro s hs
    rw [ht] at hs
    have hmem := typed_placeholder_title_mem _ _ _ hs
    exact ⟨hmem, mem_meaningful_titles_typed _ _ hmem⟩
  · intro s hs
    rw [hh] at hs
    have hmem := handwritten_placeholder_title_mem _ _ _ hs
    exact ⟨hmem, mem_meaningful_titles_handwritten _ _ hmem⟩

/-- C4 (witness): an empty-sections payload with `requested_pages = 7`
gets `max(3, min(5, 3)) = 3` synthesized sections in the typed builder. -/
theorem zero_sections_fallback_witness :
    (typed_sections_used "AI".data (ReportContent.mk [] [] [] [] 7)).length
      = placeholder_section_count 7 ∧
    3 ≤ placeholder_section_count 7 := by
  have h := zero_sections_fallback "AI".data (ReportContent.mk [] [] [] [] 7) rfl
  exact ⟨h.2.2.2.1, h.1⟩

end Report

namespace Report

end Report

namespace Report

theorem references_sanitize_idem (refs : List (Option (List Char))) :
    (refs.map (Option.map sanitize_for_pdf)).map (Option.map sanitize_for_pdf)
      = refs.map (Option.map sanitize_for_pdf) := by
  rw [List.map_map]
  apply List.map_congr_left
  intro o _
  cases o <;> simp [sanitize_idem]

/-- C6 (amended): no introduction/conclusion cap exists in
`create_typed_pdf`: the rendered introduction is exactly the
escaped-newline-collapsed sanitized payload introduction whatever its
length, the rendered conclusion is exactly the stripped sanitized payload
conclusion, and neither depends on `requested_pages`; no ellipsis marker
is ever appended. -/
theorem no_intro_conclusion_truncation (title : List Char) (c : ReportContent) :
    (sanitize_for_pdf (sanitize_for_pdf c.introduction) ≠ [] →
      typed_introduction_rendered title c
        = collapseEscapes (sanitize_for_pdf (sanitize_for_pdf c.introduction))) ∧
    (∀ rp : Nat,
      typed_introduction_rendered title
          (ReportContent.mk c.introduction c.sections c.conclusion c.references rp)
        = typed_introduction_rendered title c) ∧
    (sanitize_for_pdf (pyStrip (replaceChar (Char.ofNat 10) " ".data
        (sanitize_for_pdf c.conclusion))) ≠ [] →
      typed_conclusion_rendered title c
        = sanitize_for_pdf (pyStrip (replaceChar (Char.ofNat 10) " ".data
            (sanitize_for_pdf c.conclusion)))) := by
  refine ⟨fun h => ?_, fun rp => ?_, fun h => ?_⟩
  · simp only [typed_introduction_rendered, if_neg h]
  · simp only [typed_introduction_rendered]
  · simp only [typed_conclusion_rendered, if_neg h]

/-- C6 (counterexample): a 3000-character introduction with
`requested_pages = 4` exceeds the spec's 15% cap (600 characters of the
4000-character-per-page budget) yet is rendered in full, with no ellipsis
marker appended. -/
theorem no_truncation_counterexample :
    typed_introduction_rendered "T".data
        (ReportContent.mk (List.replicate 3000 (Char.ofNat 97)) [] [] [] 4)
      = List.replicate 3000 (Char.ofNat 97) ∧
    spec_introduction_cap 4 = 600 ∧
    spec_introduction_cap 4
      < ((List.replicate 3000 (Char.ofNat 97)).length : ℚ) ∧
    ¬ "...".data <:+ typed_introduction_rendered "T".data
        (ReportContent.mk (List.replicate 3000 (Char.ofNat 97)) [] [] [] 4) := by
  have hsan : sanitize_for_pdf (List.replicate 3000 (Char.ofNat 97))
      = List.replicate 3000 (Char.ofNat 97) :=
    sanitize_replicate _ (by decide) _
  have hne : List.replicate 3000 (Char.ofNat 97) ≠ ([] : List Char) := by
    intro h
    have h2 := congrArg List.length h
    rw [List.length_replicate, List.length_nil] at h2
    exact absurd h2 (by norm_num)
  have hnobs : ∀ x ∈ List.replicate 3000 (Char.ofNat 97), x ≠ Char.ofNat 92 := by
    intro x hx
    rw [List.eq_of_mem_replicate hx]
    decide
  have hfull : typed_introduction_rendered "T".data
      (ReportContent.mk (List.replicate 3000 (Char.ofNat 97)) [] [] [] 4)
      = List.replicate 3000 (Char.ofNat 97) := by
    show (if sanitize_for_pdf (sanitize_for_pdf (List.replicate 3000 (Char.ofNat 97))) = []
      then typed_default_introduction (sanitize_for_pdf "T".data)
      else collapseEscapes (sanitize_for_pdf (sanitize_for_pdf (List.replicate 3000 (Char.ofNat 97)))))
        = List.replicate 3000 (Char.ofNat 97)
    rw [hsan, hsan, if_neg hne]
    unfold collapseEscapes
    simp only [litBackslashN, litBackslashNN]
    rw [replaceSeq_not_head _ _ _ _ hnobs, replaceSeq_not_head _ _ _ _ hnobs]
  have hcp : typed_content_pages 4 = 1 := by decide
  refine ⟨hfull, ?_, ?_, ?_⟩
  · rw [spec_introduction_cap, hcp]
    norm_num [chars_per_page]
  · rw [spec_introduction_cap, hcp]
    norm_num [chars_per_page]
  · rw [hfull]
    intro hsuf
    have hdot : Char.ofNat 46 ∈ "...".data := by decide
    have hmem := hsuf.subset hdot
    have heq := List.eq_of_mem_replicate hmem
    exact absurd heq (by decide)

/-- C6 (witness): at a short plain introduction the amended theorem gives
the untruncated rendering. -/
theorem no_intro_conclusion_truncation_witness :
    typed_introduction_rendered "T".data (ReportContent.mk "Hi".data [] [] [] 3)
      = collapseEscapes (sanitize_for_pdf (sanitize_for_pdf "Hi".data)) := by
  have h := no_intro_conclusion_truncation "T".data
    (ReportContent.mk "Hi".data [] [] [] 3)
  exact h.1 (by decide)

/-- C8 (amended): in this embedding the builders are functions of their
inputs, but they do mutate the caller's payload: every build leaves the
payload with a nonempty sections list (placeholders are injected when it
was empty) and with all string fields sanitized; this mutation is an
idempotent normalization that preserves `requested_pages`. -/
theorem ReportContent_eq (a b : ReportContent)
    (h1 : a.introduction = b.introduction) (h2 : a.sections = b.sections)
    (h3 : a.conclusion = b.conclusion) (h4 : a.references = b.references)
    (h5 : a.requested_pages = b.requested_pages) : a = b := by
  cases a
  cases b
  simp only [ReportContent.mk.injEq]
  exact ⟨h1, h2, h3, h4, h5⟩

theorem typedFinalContent_sections (title : List Char) (c : ReportContent) :
    (typedFinalContent title c).sections = typed_sections_used title c := by
  simp only [typedFinalContent]

theorem typedFinalContent_introduction (title : List Char) (c : ReportContent) :
    (typedFinalContent title c).introduction = sanitize_for_pdf c.introduction := by
  simp only [typedFinalContent]

theorem typedFinalContent_conclusion (title : List Char) (c : ReportContent) :
    (typedFinalContent title c).conclusion = sanitize_for_pdf c.conclusion := by
  simp only [typedFinalContent]

theorem typedFinalContent_references (title : List Char) (c : ReportContent) :
    (typedFinalContent title c).references
      = c.references.map (Option.map sanitize_for_pdf) := by
  simp only [typedFinalContent]

theorem typedFinalContent_requested_pages (title : List Char) (c : ReportContent) :
    (typedFinalContent title c).requested_pages = c.requested_pages := by
  simp only [typedFinalContent]

theorem handwrittenFinalContent_sections (title : List Char) (c : ReportContent) :
    (handwrittenFinalContent title c).sections
      = handwritten_sections_used title c := by
  simp only [handwrittenFinalContent]

theorem handwrittenFinalContent_introduction (title : List Char) (c : ReportContent) :
    (handwrittenFinalContent title c).introduction
      = sanitize_for_pdf c.introduction := by
  simp only [handwrittenFinalContent]

theorem handwrittenFinalContent_conclusion (title : List Char) (c : ReportContent) :
    (handwrittenFinalContent title c).conclusion
      = sanitize_for_pdf c.conclusion := by
  simp only [handwrittenFinalContent]

theorem handwrittenFinalContent_references (title : List Char) (c : ReportContent) :
    (handwrittenFinalContent title c).references
      = c.references.map (Option.map sanitize_for_pdf) := by
  simp only [handwrittenFinalContent]

theorem handwrittenFinalContent_requested_pages (title : List Char) (c : ReportContent) :
    (handwrittenFinalContent title c).requested_pages = c.requested_pages := by
  simp only [handwrittenFinalContent]

theorem typed_sections_used_of_ne (title : List Char) (c : ReportContent)
    (h : c.sections ≠ []) : typed_sections_used title c = c.sections := by
  simp [typed_sections_used, h]

theorem handwritten_sections_used_of_ne (title : List Char) (c : ReportContent)
    (h : c.sections ≠ []) : handwritten_sections_used title c = c.sections := by
  simp [handwritten_sections_used, h]

/-- C8 (amended): in this embedding the builders are functions of their
inputs, but they do mutate the caller's payload: every build leaves the
payload with a nonempty sections list (placeholders are injected when it
was empty) and with all string fields sanitized; this mutation is an
idempotent normalization that preserves `requested_pages`. -/
theorem builder_payload_mutation (title : List Char) (c : ReportContent) :
    (typedFinalContent title c).sections ≠ [] ∧
    (handwrittenFinalContent title c).sections ≠ [] ∧
    (typedFinalContent title c).requested_pages = c.requested_pages ∧
    (typedFinalContent title c).introduction = sanitize_for_pdf c.introduction ∧
    typedFinalContent title (typedFinalContent title c) = typedFinalContent title c ∧
    handwrittenFinalContent title (handwrittenFinalContent title c)
      = handwrittenFinalContent title c := by
  refine ⟨?_, ?_, typedFinalContent_requested_pages title c,
    typedFinalContent_introduction title c, ?_, ?_⟩
  · rw [typedFinalContent_sections]
    exact typed_sections_used_ne_nil title c
  · rw [handwrittenFinalContent_sections]
    exact handwritten_sections_used_ne_nil title c
  · apply ReportContent_eq
    · rw [typedFinalContent_introduction, typedFinalContent_introduction, sanitize_idem]
    · rw [typedFinalContent_sections, typedFinalContent_sections,
        typed_sections_used_of_ne title (typedFinalContent title c)
          (by rw [typedFinalContent_sections]; exact typed_sections_used_ne_nil title c),
        typedFinalContent_sections]
    · rw [typedFinalContent_conclusion, typedFinalContent_conclusion, sanitize_idem]
    · rw [typedFinalContent_references, typedFinalContent_references,
        references_sanitize_idem]
    · rw [typedFinalContent_requested_pages]
  · apply ReportContent_eq
    · rw [handwrittenFinalContent_introduction, handwrittenFinalContent_introduction,
        sanitize_idem]
    · rw [handwrittenFinalContent_sections, handwrittenFinalContent_sections,
        handwritten_sections_used_of_ne title (handwrittenFinalContent title c)
          (by rw [handwrittenFinalContent_sections]
              exact handwritten_sections_used_ne_nil title c),
        handwrittenFinalContent_sections]
    · rw [handwrittenFinalContent_conclusion, handwrittenFinalContent_conclusion,
        sanitize_idem]
    · rw [handwrittenFinalContent_references, handwrittenFinalContent_references,
        references_sanitize_idem]
    · rw [handwrittenFinalContent_requested_pages]

/-- C8 (counterexample): the builders are not effect-free on their inputs:
on a payload with empty sections the returned payload differs from the one
passed in (placeholder sections were written into it). -/
theorem builder_purity_counterexample :
    typedFinalContent "T".data (ReportContent.mk "x".data [] [] [] 3)
      ≠ ReportContent.mk "x".data [] [] [] 3 ∧
    handwrittenFinalContent "T".data (ReportContent.mk "x".data [] [] [] 3)
      ≠ ReportContent.mk "x".data [] [] [] 3 := by
  constructor <;> decide

/-- C8 (witness): the amended theorem at a concrete payload: the mutated
payload has a nonempty sections list and keeps `requested_pages`. -/
theorem builder_payload_mutation_witness :
    (typedFinalContent "T".data (ReportContent.mk "x".data [] [] [] 3)).sections ≠ [] ∧
    (typedFinalContent "T".data (ReportContent.mk "x".data [] [] [] 3)).requested_pages
      = 3 :=
  ⟨(builder_payload_mutation "T".data (ReportContent.mk "x".data [] [] [] 3)).1,
   (builder_payload_mutation "T".data (ReportContent.mk "x".data [] [] [] 3)).2.2.1⟩

end Report

namespace Report

/-- C9: both fatigue formulas of the handwritten engine are pure functions
of the running word count (given the per-document style), strictly
increasing in it and independent of the page number; the word count is
only ever increased (by the word count of the rendered text), and a page
break changes neither the word count nor the fatigue values. -/
theorem fatigue_factor_properties :
    (∀ s t : HandwrittenState, s.writing_style = t.writing_style →
      s.word_count = t.word_count →
      fatigue_effect s = fatigue_effect t ∧ word_fatigue s = word_fatigue t) ∧
    (∀ s t : HandwrittenState, s.writing_style = t.writing_style →
      0 ≤ s.writing_style.fatigue_factor →
      s.word_count ≤ t.word_count → fatigue_effect s ≤ fatigue_effect t) ∧
    (∀ s t : HandwrittenState, s.writing_style = t.writing_style →
      2 / 100 ≤ s.writing_style.fatigue_factor →
      s.word_count < t.word_count → fatigue_effect s < fatigue_effect t) ∧
    (∀ s t : HandwrittenState, s.word_count ≤ t.word_count →
      word_fatigue s ≤ word_fatigue t) ∧
    (∀ s t : HandwrittenState, s.word_count < t.word_count →
      word_fatigue s < word_fatigue t) ∧
    (∀ (s : HandwrittenState) (text : List Char),
      s.word_count ≤ rotatedTextWordCount s text) ∧
    (∀ s : HandwrittenState, (handwrittenAddPage s).word_count = s.word_count ∧
      fatigue_effect (handwrittenAddPage s) = fatigue_effect s ∧
      word_fatigue (handwrittenAddPage s) = word_fatigue s) := by
  refine ⟨?_, ?_, ?_, ?_, ?_, ?_, ?_⟩
  · intro s t hw hwc
    unfold fatigue_effect word_fatigue
    rw [hw, hwc]
    exact ⟨rfl, rfl⟩
  · intro s t hw hff hwc
    unfold fatigue_effect
    rw [hw] at hff ⊢
    have hcast : (s.word_count : ℚ) ≤ t.word_count := Nat.cast_le.mpr hwc
    have hmono := mul_le_mul_of_nonneg_right
      (mul_le_mul_of_nonneg_right hcast hff) (by norm_num : (0 : ℚ) ≤ 1 / 10)
    linarith
  · intro s t hw hff hwc
    unfold fatigue_effect
    rw [hw] at hff ⊢
    have hcast : (s.word_count : ℚ) < t.word_count := Nat.cast_lt.mpr hwc
    have hpos : (0 : ℚ) < t.writing_style.fatigue_factor := by linarith
    have hmono := mul_lt_mul_of_pos_right
      (mul_lt_mul_of_pos_right hcast hpos) (by norm_num : (0 : ℚ) < 1 / 10)
    linarith
  · intro s t hwc
    unfold word_fatigue
    have hcast : (s.word_count : ℚ) ≤ t.word_count := Nat.cast_le.mpr hwc
    have hmono := mul_le_mul_of_nonneg_right hcast (by norm_num : (0 : ℚ) ≤ 2 / 1000)
    linarith
  · intro s t hwc
    unfold word_fatigue
    have hcast : (s.word_count : ℚ) < t.word_count := Nat.cast_lt.mpr hwc
    have hmono := mul_lt_mul_of_pos_right hcast (by norm_num : (0 : ℚ) < 2 / 1000)
    linarith
  · intro s text
    unfold rotatedTextWordCount
    exact Nat.le_add_right _ _
  · intro s
    exact ⟨rfl, rfl, rfl⟩

/-- C9 (witness): at a concrete style with fatigue factor 0.03, writing 50
words strictly increases the fatigue effect, across a page break. -/
theorem fatigue_factor_properties_witness :
    fatigue_effect
        (HandwrittenState.mk (WritingStyle.mk 0 1 1 (3 / 100) true) 0 0 0)
      < fatigue_effect
        (HandwrittenState.mk (WritingStyle.mk 0 1 1 (3 / 100) true) 50 0 3) :=
  fatigue_factor_properties.2.2.1 _ _ rfl (by norm_num) (by norm_num)

end Report

namespace Report

/-- The automatic-page-break profile of one `create_typed_pdf` execution.
`set_auto_page_break(True, margin=20)` (line 569) makes every overflowing
`cell`/`multi_cell` call the overridden `add_page` (lines 92-99), which
increments `current_page`; how many times that happens in each rendering
phase depends on font metrics outside this embedding, so it is carried as
a parameter: a statement quantified over all profiles covers every real
execution.  `sectionBreaks.getD i 0` is the number of automatic breaks
while rendering the body of the `i`-th section. -/
structure TypedOverflow where
  abstractBreaks : Nat
  tocBreaks : Nat
  introBreaks : Nat
  sectionBreaks : List Nat
  conclusionBreaks : Nat
  referencesBreaks : Nat
deriving DecidableEq

/-- The section loop of `create_typed_pdf` (lines 726-781) under a break
profile: each section gets one explicit page plus its body's automatic
breaks. -/
def typedSectionsPagesAuto (breaks : List Nat) :
    List ReportSection → Nat → Nat → Nat
  | [], _, cur => cur
  | _ :: rest, i, cur =>
    typedSectionsPagesAuto breaks rest (i + 1) (cur + 1 + breaks.getD i 0)

/-- Page-counter values of a `create_typed_pdf` execution with a given
overflow profile. -/
structure TypedAutoTrace where
  afterSectionsPage : Nat
  afterFillerPage : Nat
  conclusionPage : Nat
  referencesPage : Nat
  totalPages : Nat
deriving DecidableEq

/-- `create_typed_pdf` page trace including automatic page breaks: the
explicit `add_page` call sites of `typedBuild` plus the profile's
overflow breaks after each rendering phase.  The filler loop body
(lines 787-788) renders nothing, so it has no in-loop overflow;
`conclusion_page_number` (line 784) is computed from the sections list,
not the counter. -/
def typedBuildAuto (ov : TypedOverflow) (title : List Char) (c : ReportContent) :
    TypedAutoTrace :=
  let secs := typed_sections_used title c
  let afterAbstract := 0 + 1 + ov.abstractBreaks
  let afterToc := afterAbstract + 1 + ov.tocBreaks
  let afterIntro := afterToc + 1 + ov.introBreaks
  let afterSections := typedSectionsPagesAuto ov.sectionBreaks secs 0 afterIntro
  let conclusionPageNumber := secs.length + 3
  let afterFiller := fillLoop afterSections (conclusionPageNumber - 1)
  let conclusionPage := afterFiller + 1
  let afterConclusion := conclusionPage + ov.conclusionBreaks
  let referencesPage := afterConclusion + 1
  { afterSectionsPage := afterSections,
    afterFillerPage := afterFiller,
    conclusionPage := conclusionPage,
    referencesPage := referencesPage,
    totalPages := referencesPage + ov.referencesBreaks }

/-- Total page count of a typed execution with overflow profile `ov`. -/
def typed_total_pages_auto (ov : TypedOverflow) (title : List Char)
    (c : ReportContent) : Nat :=
  (typedBuildAuto ov title c).totalPages

/-- The profile of an execution in which no automatic break fires. -/
def typedOverflowZero : TypedOverflow := ⟨0, 0, 0, [], 0, 0⟩

/-- `n` is a lower bound on the typed page count in every execution
(every overflow profile). -/
def typed_total_pages_lower_bound (title : List Char) (c : ReportContent)
    (n : Nat) : Prop :=
  ∀ ov : TypedOverflow, n ≤ typed_total_pages_auto ov title c

/-- `n` is a lower bound on the page carrying the typed Conclusion heading
in every execution. -/
def typed_conclusion_page_lower_bound (title : List Char) (c : ReportContent)
    (n : Nat) : Prop :=
  ∀ ov : TypedOverflow, n ≤ (typedBuildAuto ov title c).conclusionPage

/-- The automatic-page-break profile of one `create_handwritten_pdf`
execution (auto page break enabled at line 947).  `fillerBreaks k` is the
number of automatic breaks while rendering the body of the `k`-th filler
page — the filler loop guard (line 1291) re-reads `current_page`, so these
affect the iteration count. -/
structure HandwrittenOverflow where
  abstractBreaks : Nat
  tocBreaks : Nat
  introBreaks : Nat
  sectionBreaks : List Nat
  fillerBreaks : Nat → Nat
  conclusionBreaks : Nat
  referencesBreaks : Nat

/-- The section loop of `create_handwritten_pdf` (lines 1278-1287) under a
break profile: a section whose sanitized title is falsy is skipped
entirely (no page, no rendering), otherwise one explicit page plus the
automatic breaks of its rendering. -/
def handSectionsPagesAuto (breaks : List Nat) :
    List ReportSection → Nat → Nat → Nat
  | [], _, cur => cur
  | s :: rest, i, cur =>
    if sanitize_for_pdf s.title = [] then handSectionsPagesAuto breaks rest (i + 1) cur
    else handSectionsPagesAuto breaks rest (i + 1) (cur + 1 + breaks.getD i 0)

/-- The handwritten filler loop with in-iteration overflow: each pass adds
one explicit page plus `extra k` automatic breaks, and the guard re-tests
the counter.  `bound - cur` fuel is always sufficient because every
iteration advances the counter by at least one. -/
def fillLoopAutoGo (bound : Nat) (extra : Nat → Nat) : Nat → Nat → Nat → Nat
  | 0, _, cur => cur
  | fuel + 1, k, cur =>
    if cur < bound then fillLoopAutoGo bound extra fuel (k + 1) (cur + 1 + extra k)
    else cur

/-- Counter value after the handwritten filler loop under break profile
`extra`. -/
def fillLoopAuto (cur bound : Nat) (extra : Nat → Nat) : Nat :=
  fillLoopAutoGo bound extra (bound - cur) 0 cur

/-- Page-counter values of a `create_handwritten_pdf` execution with a
given overflow profile. -/
structure HandwrittenAutoTrace where
  afterSectionsPage : Nat
  afterFillerPage : Nat
  conclusionPage : Nat
  referencesPage : Nat
  totalPages : Nat
deriving DecidableEq

/-- `create_handwritten_pdf` page trace including automatic page breaks:
the explicit call sites of `handwrittenBuild` plus the profile's overflow
breaks. -/
def handwrittenBuildAuto (ov : HandwrittenOverflow) (title : List Char)
    (c : ReportContent) : HandwrittenAutoTrace :=
  let secs := handwritten_sections_used title c
  let afterAbstract := 0 + 1 + ov.abstractBreaks
  let afterToc := afterAbstract + 1 + ov.tocBreaks
  let afterIntro := writeSectionPage "Introduction:".data afterToc + ov.introBreaks
  let afterSections := handSectionsPagesAuto ov.sectionBreaks secs 0 afterIntro
  let afterFiller := fillLoopAuto afterSections (c.requested_pages - 2) ov.fillerBreaks
  let conclusionPage := writeSectionPage "Conclusion:".data afterFiller
  let afterConclusion := conclusionPage + ov.conclusionBreaks
  let referencesPage := afterConclusion + 1
  { afterSectionsPage := afterSections,
    afterFillerPage := afterFiller,
    conclusionPage := conclusionPage,
    referencesPage := referencesPage,
    totalPages := referencesPage + ov.referencesBreaks }

/-- Total page count of a handwritten execution with overflow profile
`ov`. -/
def handwritten_total_pages_auto (ov : HandwrittenOverflow) (title : List Char)
    (c : ReportContent) : Nat :=
  (handwrittenBuildAuto ov title c).totalPages

/-- The profile of a handwritten execution in which no automatic break
fires. -/
def handwrittenOverflowZero : HandwrittenOverflow :=
  ⟨0, 0, 0, [], fun _ => 0, 0, 0⟩

end Report

namespace Report

theorem typedSectionsPagesAuto_ge (breaks : List Nat) :
    ∀ (l : List ReportSection) (i cur : Nat),
      cur + l.length ≤ typedSectionsPagesAuto breaks l i cur := by
  intro l
  induction l with
  | nil =>
    intro i cur
    simp [typedSectionsPagesAuto]
  | cons s rest ih =>
    intro i cur
    simp only [typedSectionsPagesAuto, List.length_cons]
    have h := ih (i + 1) (cur + 1 + breaks.getD i 0)
    omega

theorem typedSectionsPagesAuto_nil_breaks :
    ∀ (l : List ReportSection) (i cur : Nat),
      typedSectionsPagesAuto [] l i cur = cur + l.length := by
  intro l
  induction l with
  | nil =>
    intro i cur
    simp [typedSectionsPagesAuto]
  | cons s rest ih =>
    intro i cur
    simp only [typedSectionsPagesAuto, List.getD_nil, List.length_cons]
    rw [ih]
    omega

theorem handSectionsPagesAuto_ge (breaks : List Nat) :
    ∀ (l : List ReportSection) (i cur : Nat),
      cur + l.countP (fun s => decide (sanitize_for_pdf s.title ≠ []))
        ≤ handSectionsPagesAuto breaks l i cur := by
  intro l
  induction l with
  | nil =>
    intro i cur
    simp [handSectionsPagesAuto]
  | cons s rest ih =>
    intro i cur
    simp only [handSectionsPagesAuto, List.countP_cons]
    by_cases h : sanitize_for_pdf s.title = []
    · rw [if_pos h]
      have hps : (decide (sanitize_for_pdf s.title ≠ []) : Bool) = false := by simp [h]
      rw [hps, if_neg (by simp : ¬ (false = true))]
      have := ih (i + 1) cur
      omega
    · rw [if_neg h]
      have hps : (decide (sanitize_for_pdf s.title ≠ []) : Bool) = true := by simp [h]
      rw [hps, if_pos rfl]
      have := ih (i + 1) (cur + 1 + breaks.getD i 0)
      omega

theorem handSectionsPagesAuto_nil_breaks :
    ∀ (l : List ReportSection) (i cur : Nat),
      handSectionsPagesAuto [] l i cur
        = cur + l.countP (fun s => decide (sanitize_for_pdf s.title ≠ [])) := by
  intro l
  induction l with
  | nil =>
    intro i cur
    simp [handSectionsPagesAuto]
  | cons s rest ih =>
    intro i cur
    simp only [handSectionsPagesAuto, List.getD_nil, List.countP_cons]
    by_cases h : sanitize_for_pdf s.title = []
    · rw [if_pos h, ih]
      have hps : (decide (sanitize_for_pdf s.title ≠ []) : Bool) = false := by simp [h]
      rw [hps, if_neg (by simp : ¬ (false = true))]
      omega
    · rw [if_neg h, ih]
      have hps : (decide (sanitize_for_pdf s.title ≠ []) : Bool) = true := by simp [h]
      rw [hps, if_pos rfl]
      omega

theorem fillLoopAutoGo_ge_cur (bound : Nat) (extra : Nat → Nat) :
    ∀ (fuel k cur : Nat), cur ≤ fillLoopAutoGo bound extra fuel k cur := by
  intro fuel
  induction fuel with
  | zero =>
    intro k cur
    simp [fillLoopAutoGo]
  | succ n ih =>
    intro k cur
    by_cases h : cur < bound
    · simp only [fillLoopAutoGo, if_pos h]
      have := ih (k + 1) (cur + 1 + extra k)
      omega
    · simp [fillLoopAutoGo, h]

theorem fillLoopAutoGo_ge_bound (bound : Nat) (extra : Nat → Nat) :
    ∀ (fuel k cur : Nat), bound ≤ cur + fuel →
      bound ≤ fillLoopAutoGo bound extra fuel k cur := by
  intro fuel
  induction fuel with
  | zero =>
    intro k cur h
    simp only [fillLoopAutoGo]
    omega
  | succ n ih =>
    intro k cur h
    by_cases hlt : cur < bound
    · simp only [fillLoopAutoGo, if_pos hlt]
      exact ih (k + 1) (cur + 1 + extra k) (by omega)
    · simp only [fillLoopAutoGo, if_neg hlt]
      omega

theorem fillLoopAuto_ge (cur bound : Nat) (extra : Nat → Nat) :
    max cur bound ≤ fillLoopAuto cur bound extra := by
  unfold fillLoopAuto
  have h1 := fillLoopAutoGo_ge_cur bound extra (bound - cur) 0 cur
  have h2 := fillLoopAutoGo_ge_bound bound extra (bound - cur) 0 cur (by omega)
  omega

theorem fillLoopAuto_of_le (cur bound : Nat) (extra : Nat → Nat)
    (h : bound ≤ cur) : fillLoopAuto cur bound extra = cur := by
  unfold fillLoopAuto
  rw [Nat.sub_eq_zero_of_le h]
  rfl

theorem fillLoopAutoGo_zero_extra (bound : Nat) :
    ∀ (fuel k cur : Nat),
      fillLoopAutoGo bound (fun _ => 0) fuel k cur = fillLoopGo bound fuel cur := by
  intro fuel
  induction fuel with
  | zero =>
    intro k cur
    rfl
  | succ n ih =>
    intro k cur
    by_cases h : cur < bound
    · simp only [fillLoopAutoGo, fillLoopGo, if_pos h, Nat.add_zero]
      exact ih (k + 1) (cur + 1)
    · simp only [fillLoopAutoGo, fillLoopGo, if_neg h]

theorem fillLoopAuto_zero_extra (cur bound : Nat) :
    fillLoopAuto cur bound (fun _ => 0) = fillLoop cur bound := by
  unfold fillLoopAuto fillLoop
  exact fillLoopAutoGo_zero_extra bound (bound - cur) 0 cur

end Report

namespace Report

theorem typedBuildAuto_afterSections_ge (ov : TypedOverflow) (title : List Char)
    (c : ReportContent) :
    (typed_sections_used title c).length + 3
      ≤ (typedBuildAuto ov title c).afterSectionsPage := by
  simp only [typedBuildAuto]
  refine le_trans ?_ (typedSectionsPagesAuto_ge ov.sectionBreaks
    (typed_sections_used title c) 0
    (0 + 1 + ov.abstractBreaks + 1 + ov.tocBreaks + 1 + ov.introBreaks))
  omega

theorem typedBuildAuto_afterFillerPage (ov : TypedOverflow) (title : List Char)
    (c : ReportContent) :
    (typedBuildAuto ov title c).afterFillerPage
      = (typedBuildAuto ov title c).afterSectionsPage := by
  have hge := typedBuildAuto_afterSections_ge ov title c
  simp only [typedBuildAuto] at hge ⊢
  rw [fillLoop_eq]
  omega

theorem typedBuildAuto_conclusionPage (ov : TypedOverflow) (title : List Char)
    (c : ReportContent) :
    (typedBuildAuto ov title c).conclusionPage
      = (typedBuildAuto ov title c).afterSectionsPage + 1 := by
  have hge := typedBuildAuto_afterSections_ge ov title c
  simp only [typedBuildAuto] at hge ⊢
  rw [fillLoop_eq]
  omega

theorem typedBuildAuto_referencesPage (ov : TypedOverflow) (title : List Char)
    (c : ReportContent) :
    (typedBuildAuto ov title c).referencesPage
      = (typedBuildAuto ov title c).afterSectionsPage + 2 + ov.conclusionBreaks := by
  have hge := typedBuildAuto_afterSections_ge ov title c
  simp only [typedBuildAuto] at hge ⊢
  rw [fillLoop_eq]
  omega

theorem typedBuildAuto_totalPages (ov : TypedOverflow) (title : List Char)
    (c : ReportContent) :
    (typedBuildAuto ov title c).totalPages
      = (typedBuildAuto ov title c).afterSectionsPage + 2 + ov.conclusionBreaks
        + ov.referencesBreaks := by
  have hge := typedBuildAuto_afterSections_ge ov title c
  simp only [typedBuildAuto] at hge ⊢
  rw [fillLoop_eq]
  omega

theorem typed_total_pages_auto_ge (ov : TypedOverflow) (title : List Char)
    (c : ReportContent) :
    (typed_sections_used title c).length + 5 ≤ typed_total_pages_auto ov title c := by
  have h1 := typedBuildAuto_totalPages ov title c
  have h2 := typedBuildAuto_afterSections_ge ov title c
  unfold typed_total_pages_auto
  omega

theorem typedBuildAuto_zero_afterSections (title : List Char) (c : ReportContent) :
    (typedBuildAuto typedOverflowZero title c).afterSectionsPage
      = (typed_sections_used title c).length + 3 := by
  simp only [typedBuildAuto, typedOverflowZero]
  rw [typedSectionsPagesAuto_nil_breaks]
  omega

theorem typed_total_pages_auto_zero (title : List Char) (c : ReportContent) :
    typed_total_pages_auto typedOverflowZero title c
      = (typed_sections_used title c).length + 5 := by
  have h1 := typedBuildAuto_totalPages typedOverflowZero title c
  have h2 := typedBuildAuto_zero_afterSections title c
  unfold typed_total_pages_auto
  rw [h1, h2]
  simp [typedOverflowZero]

theorem typed_total_pages_auto_zero_eq (title : List Char) (c : ReportContent) :
    typed_total_pages_auto typedOverflowZero title c = typed_total_pages title c := by
  rw [typed_total_pages_auto_zero, typed_total_pages, typedBuild_referencesPage]

theorem handwrittenBuildAuto_afterSections_ge (ov : HandwrittenOverflow)
    (title : List Char) (c : ReportContent) :
    handwritten_rendered_count title c + 3
      ≤ (handwrittenBuildAuto ov title c).afterSectionsPage := by
  have h1 : "Introduction:".data ≠ [] := by decide
  simp only [handwrittenBuildAuto, handwritten_rendered_count]
  refine le_trans ?_ (handSectionsPagesAuto_ge ov.sectionBreaks
    (handwritten_sections_used title c) 0
    (writeSectionPage "Introduction:".data (0 + 1 + ov.abstractBreaks + 1 + ov.tocBreaks)
      + ov.introBreaks))
  rw [writeSectionPage, if_neg h1]
  omega

theorem handwrittenBuildAuto_afterFiller_ge (ov : HandwrittenOverflow)
    (title : List Char) (c : ReportContent) :
    max ((handwrittenBuildAuto ov title c).afterSectionsPage)
        (c.requested_pages - 2)
      ≤ (handwrittenBuildAuto ov title c).afterFillerPage := by
  simp only [handwrittenBuildAuto]
  exact fillLoopAuto_ge _ _ _

theorem handwrittenBuildAuto_conclusionPage (ov : HandwrittenOverflow)
    (title : List Char) (c : ReportContent) :
    (handwrittenBuildAuto ov title c).conclusionPage
      = (handwrittenBuildAuto ov title c).afterFillerPage + 1 := by
  have h2 : "Conclusion:".data ≠ [] := by decide
  simp only [handwrittenBuildAuto]
  rw [writeSectionPage, if_neg h2]

theorem handwrittenBuildAuto_referencesPage (ov : HandwrittenOverflow)
    (title : List Char) (c : ReportContent) :
    (handwrittenBuildAuto ov title c).referencesPage
      = (handwrittenBuildAuto ov title c).conclusionPage + ov.conclusionBreaks + 1 := by
  simp only [handwrittenBuildAuto]

theorem handwrittenBuildAuto_totalPages (ov : HandwrittenOverflow)
    (title : List Char) (c : ReportContent) :
    (handwrittenBuildAuto ov title c).totalPages
      = (handwrittenBuildAuto ov title c).afterFillerPage + 2 + ov.conclusionBreaks
        + ov.referencesBreaks := by
  have h2 : "Conclusion:".data ≠ [] := by decide
  simp only [handwrittenBuildAuto]
  rw [writeSectionPage, if_neg h2]
  omega

theorem handwritten_total_pages_auto_ge (ov : HandwrittenOverflow)
    (title : List Char) (c : ReportContent) :
    max (handwritten_rendered_count title c + 5) c.requested_pages
      ≤ handwritten_total_pages_auto ov title c := by
  have h1 := handwrittenBuildAuto_totalPages ov title c
  have h2 := handwrittenBuildAuto_afterFiller_ge ov title c
  have h3 := handwrittenBuildAuto_afterSections_ge ov title c
  unfold handwritten_total_pages_auto
  omega

theorem handwrittenBuildAuto_zero_afterSections (title : List Char)
    (c : ReportContent) :
    (handwrittenBuildAuto handwrittenOverflowZero title c).afterSectionsPage
      = handwritten_rendered_count title c + 3 := by
  have h1 : "Introduction:".data ≠ [] := by decide
  simp only [handwrittenBuildAuto, handwrittenOverflowZero, handwritten_rendered_count]
  rw [handSectionsPagesAuto_nil_breaks, writeSectionPage, if_neg h1]
  omega

theorem handwrittenBuildAuto_zero_afterFiller (title : List Char)
    (c : ReportContent) :
    (handwrittenBuildAuto handwrittenOverflowZero title c).afterFillerPage
      = max (handwritten_rendered_count title c + 3) (c.requested_pages - 2) := by
  have hz := handwrittenBuildAuto_zero_afterSections title c
  simp only [handwrittenBuildAuto, handwrittenOverflowZero] at hz ⊢
  rw [fillLoopAuto_zero_extra, fillLoop_eq, hz]

theorem handwritten_total_pages_auto_zero (title : List Char) (c : ReportContent) :
    handwritten_total_pages_auto handwrittenOverflowZero title c
      = max (handwritten_rendered_count title c + 5) c.requested_pages := by
  have h1 := handwrittenBuildAuto_totalPages handwrittenOverflowZero title c
  have h2 := handwrittenBuildAuto_zero_afterFiller title c
  unfold handwritten_total_pages_auto
  rw [h1, h2]
  simp only [handwrittenOverflowZero]
  omega

theorem handwritten_total_pages_auto_zero_eq (title : List Char) (c : ReportContent) :
    handwritten_total_pages_auto handwrittenOverflowZero title c
      = handwritten_total_pages title c := by
  rw [handwritten_total_pages_auto_zero, handwritten_total_pages_eq]

end Report

namespace Report

/-- C1 (amended): counting every page break — the explicit `add_page`
call sites plus any profile of automatic overflow breaks (fpdf's auto
page break invokes the overridden `add_page`) — the typed document has at
least `len(sections laid out) + 5` pages in every execution, its filler
loop never runs, and with no overflow the count is exactly `len + 5`: it
tracks content, never `requested_pages`.  The handwritten document has at
least `max(N + 5, requested_pages)` pages in every execution, where `N`
counts sections with nonempty sanitized titles — it never undershoots
`requested_pages` — and with no overflow the count is exactly
`max(N + 5, requested_pages)`. -/
theorem page_count_formulas (ov : TypedOverflow) (hov : HandwrittenOverflow)
    (title : List Char) (c : ReportContent) :
    (typed_sections_used title c).length + 5 ≤ typed_total_pages_auto ov title c ∧
    (typedBuildAuto ov title c).afterFillerPage
      = (typedBuildAuto ov title c).afterSectionsPage ∧
    typed_total_pages_auto typedOverflowZero title c
      = (typed_sections_used title c).length + 5 ∧
    max (handwritten_rendered_count title c + 5) c.requested_pages
      ≤ handwritten_total_pages_auto hov title c ∧
    handwritten_total_pages_auto handwrittenOverflowZero title c
      = max (handwritten_rendered_count title c + 5) c.requested_pages :=
  ⟨typed_total_pages_auto_ge ov title c,
   typedBuildAuto_afterFillerPage ov title c,
   typed_total_pages_auto_zero title c,
   handwritten_total_pages_auto_ge hov title c,
   handwritten_total_pages_auto_zero title c⟩

/-- C1 (counterexample): a well-formed payload with one section and
`requested_pages = 3`: in every execution (every automatic-overflow
profile) the typed document has at least 6 pages, so its page count never
equals the requested 3. -/
theorem page_count_exactness_counterexample :
    typed_total_pages_lower_bound "Topic".data
      (ReportContent.mk [] [ReportSection.mk "Alpha".data "Body".data] [] [] 3) 6 ∧
    (ReportContent.mk [] [ReportSection.mk "Alpha".data "Body".data] [] []
      3 : ReportContent).requested_pages = 3 ∧
    1 ≤ (ReportContent.mk [] [ReportSection.mk "Alpha".data "Body".data] [] []
      3 : ReportContent).requested_pages := by
  refine ⟨?_, by decide, by decide⟩
  intro ov
  have hge := typed_total_pages_auto_ge ov "Topic".data
    (ReportContent.mk [] [ReportSection.mk "Alpha".data "Body".data] [] [] 3)
  have hlen : (typed_sections_used "Topic".data
      (ReportContent.mk [] [ReportSection.mk "Alpha".data "Body".data] [] [] 3)).length
      = 1 := by decide
  omega

/-- C1 (witness): at a concrete one-section payload with
`requested_pages = 4` and no overflow, the amended theorem evaluates to a
6-page typed document and a 6-page handwritten document. -/
theorem page_count_formulas_witness :
    typed_total_pages_auto typedOverflowZero "Topic".data
      (ReportContent.mk [] [ReportSection.mk "Alpha".data "Body".data] [] [] 4) = 6 ∧
    handwritten_total_pages_auto handwrittenOverflowZero "Topic".data
      (ReportContent.mk [] [ReportSection.mk "Alpha".data "Body".data] [] [] 4) = 6 := by
  have h := page_count_formulas typedOverflowZero handwrittenOverflowZero "Topic".data
    (ReportContent.mk [] [ReportSection.mk "Alpha".data "Body".data] [] [] 4)
  constructor
  · rw [h.2.2.1]
    decide
  · rw [h.2.2.2.2]
    decide

/-- C2 (amended): the printed TOC numbers agree with the body exactly when
no automatic overflow break fires before the Conclusion: for typed builds
with a nonempty payload sections list, the Conclusion heading matches its
TOC number iff the page counter after the sections equals
`len(sections) + 3` (no pre-conclusion overflow), and References
additionally requires no break inside the conclusion body; both counter
conditions hold in the zero-overflow execution.  For handwritten builds
the same no-overflow counter condition is needed together with every
section title sanitizing nonempty and `requested_pages ≤ len + 5` (so the
filler loop adds nothing).  With an empty sections list the TOC (printed
before placeholder synthesis) disagrees with the body in every
execution. -/
theorem toc_body_agreement (ov : TypedOverflow) (hov : HandwrittenOverflow)
    (title : List Char) (c : ReportContent) :
    (c.sections ≠ [] →
      (((typedBuildAuto ov title c).conclusionPage = (typed_toc_pages c).1) ↔
        (typedBuildAuto ov title c).afterSectionsPage = c.sections.length + 3) ∧
      (((typedBuildAuto ov title c).referencesPage = (typed_toc_pages c).2) ↔
        (typedBuildAuto ov title c).afterSectionsPage + ov.conclusionBreaks
          = c.sections.length + 3)) ∧
    (typedBuildAuto typedOverflowZero title c).afterSectionsPage
      = (typed_sections_used title c).length + 3 ∧
    (handwrittenBuildAuto handwrittenOverflowZero title c).afterSectionsPage
      = handwritten_rendered_count title c + 3 ∧
    (c.sections ≠ [] →
      (∀ s ∈ c.sections, sanitize_for_pdf s.title ≠ []) →
      c.requested_pages ≤ c.sections.length + 5 →
      (handwrittenBuildAuto hov title c).afterSectionsPage = c.sections.length + 3 →
      (handwrittenBuildAuto hov title c).conclusionPage = (handwritten_toc_pages c).1 ∧
      (hov.conclusionBreaks = 0 →
        (handwrittenBuildAuto hov title c).referencesPage
          = (handwritten_toc_pages c).2)) := by
  refine ⟨?_, typedBuildAuto_zero_afterSections title c,
    handwrittenBuildAuto_zero_afterSections title c, ?_⟩
  · intro hne
    have hconc := typedBuildAuto_conclusionPage ov title c
    have hrefs := typedBuildAuto_referencesPage ov title c
    rw [typed_toc_pages_eq, hconc, hrefs]
    constructor
    · show (typedBuildAuto ov title c).afterSectionsPage + 1
          = c.sections.length + 4 ↔
        (typedBuildAuto ov title c).afterSectionsPage = c.sections.length + 3
      omega
    · show (typedBuildAuto ov title c).afterSectionsPage + 2 + ov.conclusionBreaks
          = c.sections.length + 5 ↔
        (typedBuildAuto ov title c).afterSectionsPage + ov.conclusionBreaks
          = c.sections.length + 3
      omega
  · intro hne htitles hrp hafter
    have hconc := handwrittenBuildAuto_conclusionPage hov title c
    have hrefs := handwrittenBuildAuto_referencesPage hov title c
    have hfill : (handwrittenBuildAuto hov title c).afterFillerPage
        = (handwrittenBuildAuto hov title c).afterSectionsPage := by
      simp only [handwrittenBuildAuto] at hafter ⊢
      exact fillLoopAuto_of_le _ _ _ (by rw [hafter]; omega)
    rw [handwritten_toc_pages_eq]
    constructor
    · rw [hconc, hfill, hafter]
    · intro hcb
      rw [hrefs, hconc, hfill, hafter, hcb]

/-- C2 (counterexample): with an empty sections list and
`requested_pages = 3`, the typed TOC prints Conclusion on page 4, but in
every execution (every overflow profile) the Conclusion heading lands on
page 7 or later, after the 3 synthesized placeholder sections. -/
theorem toc_body_agreement_counterexample :
    (typed_toc_pages (ReportContent.mk [] [] [] [] 3)).1 = 4 ∧
    typed_conclusion_page_lower_bound "T".data (ReportContent.mk [] [] [] [] 3) 7 := by
  refine ⟨by decide, ?_⟩
  intro ov
  have hge := typedBuildAuto_afterSections_ge ov "T".data
    (ReportContent.mk [] [] [] [] 3)
  have hconc := typedBuildAuto_conclusionPage ov "T".data
    (ReportContent.mk [] [] [] [] 3)
  have hlen : (typed_sections_used "T".data (ReportContent.mk [] [] [] [] 3)).length
      = 3 := by decide
  omega

/-- C2 (witness): with one nonempty-titled section, `requested_pages = 3`
and no overflow, TOC and body agree in both builders. -/
theorem toc_body_agreement_witness :
    (typedBuildAuto typedOverflowZero "T".data
        (ReportContent.mk [] [ReportSection.mk "A".data "B".data] [] [] 3)).conclusionPage
      = (typed_toc_pages
          (ReportContent.mk [] [ReportSection.mk "A".data "B".data] [] [] 3)).1 ∧
    (handwrittenBuildAuto handwrittenOverflowZero "T".data
        (ReportContent.mk [] [ReportSection.mk "A".data "B".data] [] [] 3)).conclusionPage
      = (handwritten_toc_pages
          (ReportContent.mk [] [ReportSection.mk "A".data "B".data] [] [] 3)).1 := by
  have h := toc_body_agreement typedOverflowZero handwrittenOverflowZero "T".data
    (ReportContent.mk [] [ReportSection.mk "A".data "B".data] [] [] 3)
  exact ⟨(h.1 (by decide)).1.mpr (by decide),
    (h.2.2.2 (by decide) (by decide) (by decide) (by decide)).1⟩

end Report
